import Mathlib

/-!
Shallow embedding of `arch/arm/mach-exynos/edcs.c` (Exynos dual cluster
power management support) and proofs about its power sequencing logic.

The reference-counted power sequencer keeps, per (cpu, cluster), a use count
`edcs_use_count` and, per cluster, an active-core count `core_count`, both
protected by one global spin lock.  `exynos_power_up` increments the use
count and powers the core on when it transitions 0 -> 1; `exynos_power_down`
decrements it, elects a "last man" when the cluster's active count reaches
zero, and performs either whole-cluster or local-only cache teardown.

Externally supplied facts (MCPM coordinator outcomes, hardware registers)
are modelled as explicit oracle parameters; the externally visible calls a
run performs (GIC masking, cache flushes, CCI port disable, MCPM
notifications, power gating, wfi, lock acquire/release) are recorded in an
action trace so that ordering properties can be stated.
-/

/-- `EDCS_CPUS_PER_CLUSTER` from edcs.c. -/
def EDCS_CPUS_PER_CLUSTER : Nat := 4

/-- `EDCS_CLUSTERS` from edcs.c. -/
def EDCS_CLUSTERS : Nat := 2

/-- `SECONDARY_RESET` = `1 << 1` from edcs.c. -/
def SECONDARY_RESET : Nat := 2

/-- The sequencer's shared bookkeeping: `edcs_use_count[cpu][cluster]` and
`core_count[cluster]` from edcs.c (C ints, modelled as unbounded `Int`:
the values stay tiny, and the fatal assertions fire long before overflow). -/
structure EdcsState where
  use_count : Nat → Nat → Int
  core_count : Nat → Int

/-- The zero-initialised static arrays of edcs.c before `edcs_data_init`. -/
def zeroState : EdcsState :=
  { use_count := fun _ _ => 0, core_count := fun _ => 0 }

/-- Write `edcs_use_count[cpu][cluster] = v`. -/
def setUse (s : EdcsState) (cpu cluster : Nat) (v : Int) : EdcsState :=
  { s with use_count := fun i j => if i = cpu ∧ j = cluster then v else s.use_count i j }

/-- Add `d` to `core_count[cluster]` (models `++core_count[cluster]` /
`--core_count[cluster]`). -/
def addCore (s : EdcsState) (cluster : Nat) (d : Int) : EdcsState :=
  { s with core_count := fun j => if j = cluster then s.core_count j + d else s.core_count j }

/-- Externally visible actions of `exynos_power_up`, in program order. -/
inductive UpAct where
  | lockAcquire
  | setBootFlag (mode : Nat)
  | corePowerUp
  | lockRelease
deriving DecidableEq, Repr

/-- Result of `exynos_power_up`: either the fatal `BUG()` path, or the new
state, the action trace and the returned value. -/
inductive UpResult where
  | bug
  | ok (s : EdcsState) (tr : List UpAct) (ret : Int)

/-- `exynos_power_up(cpu, cluster)` from edcs.c:
`BUG_ON` for out-of-range identity; under the lock, increment the use count;
on 0 -> 1 also increment `core_count`, set the boot flag to `SECONDARY_RESET`
and assert the core's power gate; a resulting value other than 1 or 2 is
`BUG()`; unlock and return 0. -/
def exynos_power_up (cpu cluster : Nat) (s : EdcsState) : UpResult :=
  if EDCS_CPUS_PER_CLUSTER ≤ cpu ∨ EDCS_CLUSTERS ≤ cluster then .bug
  else
    let u := s.use_count cpu cluster + 1
    let s1 := setUse s cpu cluster u
    if u = 1 then
      .ok (addCore s1 cluster 1)
        [UpAct.lockAcquire, UpAct.setBootFlag SECONDARY_RESET,
         UpAct.corePowerUp, UpAct.lockRelease] 0
    else if u = 2 then
      .ok s1 [UpAct.lockAcquire, UpAct.lockRelease] 0
    else .bug

/-- Externally visible actions of `exynos_power_down`, in program order. -/
inductive DownAct where
  | cpuGoingDown
  | lockAcquire
  | clusterStateCheck (up : Bool)
  | gicCpuIfDown
  | enterCritical (ok : Bool)
  | lockRelease
  | flushAll
  | cciDisablePort
  | leaveCriticalDown
  | flushLouis
  | cpuDown
  | corePowerDown
  | wfi
deriving DecidableEq, Repr

/-- Result of `exynos_power_down`: either the fatal `BUG()` path (with the
actions performed before halting), or the final state, full action trace and
the `skip_wfi` / `last_man` flags. -/
inductive DownResult where
  | bug (tr : List DownAct)
  | ok (s : EdcsState) (tr : List DownAct) (skip_wfi last_man : Bool)

/-- The code of `exynos_power_down` after the use-count branch:
`if (!skip_wfi) gic_cpu_if_down();` then either the whole-cluster teardown
(`last_man && __mcpm_outbound_enter_critical` succeeded: unlock, flush the
whole cache with coherency disable, `cci_disable_port_by_cpu`,
`__mcpm_outbound_leave_critical(CLUSTER_DOWN)`) or the local path (unlock,
flush to the level of unification); then `__mcpm_cpu_down`, and finally
`exynos_core_power_down` plus `wfi()` unless `skip_wfi`. -/
def exynos_power_down_tail (enterOk : Bool) (s : EdcsState) (tr0 : List DownAct)
    (skip_wfi last_man : Bool) : DownResult :=
  let tr1 := if skip_wfi then tr0 else tr0 ++ [DownAct.gicCpuIfDown]
  let tr2 :=
    if last_man && enterOk then
      tr1 ++ [DownAct.enterCritical true, DownAct.lockRelease,
              DownAct.flushAll, DownAct.cciDisablePort, DownAct.leaveCriticalDown]
    else if last_man then
      tr1 ++ [DownAct.enterCritical false, DownAct.lockRelease, DownAct.flushLouis]
    else
      tr1 ++ [DownAct.lockRelease, DownAct.flushLouis]
  let tr3 := tr2 ++ [DownAct.cpuDown]
  let tr4 := if skip_wfi then tr3 else tr3 ++ [DownAct.corePowerDown, DownAct.wfi]
  DownResult.ok s tr4 skip_wfi last_man

/-- `exynos_power_down()` from edcs.c, with the executing core's identity
`(cpu, cluster)` (read from MPIDR in the source) and two oracles for the
external MCPM coordinator: `clusterUp` is whether `__mcpm_cluster_state`
reads `CLUSTER_UP`, and `enterOk` is the outcome of
`__mcpm_outbound_enter_critical` when it is invoked.
`BUG_ON` for out-of-range identity; `__mcpm_cpu_going_down`; lock;
`BUG_ON(__mcpm_cluster_state(cluster) != CLUSTER_UP)`; decrement the use
count; on 1 -> 0 decrement `core_count` and elect `last_man` when it hits
zero; on 2 -> 1 set `skip_wfi`; any other value is `BUG()`; then the tail. -/
def exynos_power_down (clusterUp enterOk : Bool) (cpu cluster : Nat)
    (s : EdcsState) : DownResult :=
  if EDCS_CPUS_PER_CLUSTER ≤ cpu ∨ EDCS_CLUSTERS ≤ cluster then .bug []
  else
    let tr0 := [DownAct.cpuGoingDown, DownAct.lockAcquire, DownAct.clusterStateCheck clusterUp]
    if clusterUp = false then .bug tr0
    else
      let u := s.use_count cpu cluster - 1
      let s1 := setUse s cpu cluster u
      if u = 0 then
        let s2 := addCore s1 cluster (-1)
        let last_man := s2.core_count cluster == 0
        exynos_power_down_tail enterOk s2 tr0 false last_man
      else if u = 1 then
        exynos_power_down_tail enterOk s1 tr0 true false
      else .bug tr0

/-- The action trace of a `power_down` run (including a run halted by `BUG`). -/
def DownResult.trace : DownResult → List DownAct
  | .bug tr => tr
  | .ok _ tr _ _ => tr

/-- Whether a `power_down` run halted on the fatal `BUG()` path. -/
def DownResult.isBug : DownResult → Bool
  | .bug _ => true
  | .ok _ _ _ _ => false

/-- `edcs_data_init` from edcs.c: `BUG_ON` for out-of-range boot identity,
then `edcs_use_count[cpu][cluster] = 1; ++core_count[cluster];`. -/
def edcs_data_init (cpu cluster : Nat) (s : EdcsState) : Option EdcsState :=
  if EDCS_CPUS_PER_CLUSTER ≤ cpu ∨ EDCS_CLUSTERS ≤ cluster then none
  else some (addCore (setUse s cpu cluster 1) cluster 1)

/-- An interleaving event: a `power_up(cpu, cluster)` request, or a
`power_down` executed by core `(cpu, cluster)` under given coordinator
oracles. -/
inductive EdcsEvent where
  | up (cpu cluster : Nat)
  | down (clusterUp enterOk : Bool) (cpu cluster : Nat)

/-- One step of the interleaving: the event's call runs to completion
(`none` when it hits a fatal `BUG` path). -/
def edcsStep (s : EdcsState) : EdcsEvent → Option EdcsState
  | .up cpu cluster =>
    match exynos_power_up cpu cluster s with
    | .ok s1 _ _ => some s1
    | .bug => none
  | .down clusterUp enterOk cpu cluster =>
    match exynos_power_down clusterUp enterOk cpu cluster s with
    | .ok s1 _ _ _ => some s1
    | .bug _ => none

/-- Run a sequence of interleaved calls; `none` as soon as one hits `BUG`. -/
def edcsExec (s : EdcsState) : List EdcsEvent → Option EdcsState
  | [] => some s
  | e :: es =>
    match edcsStep s e with
    | some s1 => edcsExec s1 es
    | none => none

/-- Number of cores of cluster `cl` whose use count is at least 1. -/
def countActive (s : EdcsState) (cl : Nat) : Nat :=
  (List.range EDCS_CPUS_PER_CLUSTER).countP (fun i => decide (1 ≤ s.use_count i cl))

/-- The spec's lock-free-point invariant: every use count lies in {0, 1, 2},
and each cluster's `core_count` equals the number of its cores with use
count at least 1. -/
def EdcsInv (s : EdcsState) : Prop :=
  (∀ cpu < EDCS_CPUS_PER_CLUSTER, ∀ cl < EDCS_CLUSTERS,
      s.use_count cpu cl = 0 ∨ s.use_count cpu cl = 1 ∨ s.use_count cpu cl = 2) ∧
  (∀ cl < EDCS_CLUSTERS, s.core_count cl = (countActive s cl : Int))

instance (s : EdcsState) : Decidable (EdcsInv s) := by
  unfold EdcsInv; infer_instance

/-- `MAX_CPUS_PER_CLUSTER` from `asm/mcpm.h` (not under src; the spec fixes
four cores per cluster). -/
def MAX_CPUS_PER_CLUSTER : Nat := 4

/-- `S5P_CORE_LOCAL_PWR_EN` (0x3) from `mach/regs-pmu.h` (not under src). -/
def S5P_CORE_LOCAL_PWR_EN : Nat := 3

/-- Modelled from the spec: the power-management unit's registers, which are
behind `readl_relaxed`/`writel_relaxed` and not under src.  `status n` is the
value read back from `EDCS_CORE_STATUS` for core offset `n`; `writes` counts
configuration bus writes.  Per the spec the gate "reads current state before
writing" and a repeated call "observes no state change", so a completed
configuration write is reflected in the observed status. -/
structure PmuState where
  status : Nat → Nat
  writes : Nat

/-- `exynos_core_power_control(cpu, cluster, enable)` from edcs.c: compute
the core offset and desired value, read `EDCS_CORE_STATUS(offset) & 0x3`,
and only when it differs from the desired value issue the configuration
write (recorded in `writes`, and reflected in the observed status per the
spec's hardware model). -/
def exynos_core_power_control (cpu cluster : Nat) (enable : Bool)
    (hw : PmuState) : PmuState :=
  let offset := cluster * MAX_CPUS_PER_CLUSTER + cpu
  let value := if enable then S5P_CORE_LOCAL_PWR_EN else 0
  if hw.status offset % 4 ≠ value then
    { status := fun n => if n = offset then value else hw.status n,
      writes := hw.writes + 1 }
  else hw

/-- A PMU register file observing every core as powered on. -/
def pmuAllOn : PmuState := { status := fun _ => 3, writes := 0 }

/-- `ENODEV` from `linux/errno.h`. -/
def ENODEV : Int := 19

/-- The initialisation-time effects of `edcs_init`: the bookkeeping tables,
whether the MCPM entry vector was written to `REG_ENTRY_ADDR`, whether
`mcpm_smp_set_ops` ran, whether `mcpm_platform_register` succeeded, and
whether `mcpm_sync_init` ran. -/
structure InitState where
  edcs : EdcsState
  entry_vector : Bool
  smp_ops : Bool
  ops_registered : Bool
  sync_done : Bool

/-- The pristine pre-init state: zeroed tables, nothing installed. -/
def initState0 : InitState :=
  { edcs := zeroState, entry_vector := false, smp_ops := false,
    ops_registered := false, sync_done := false }

/-- `edcs_init` from edcs.c, with oracles for the externals: `nodeFound` is
whether `of_find_compatible_node` finds the samsung,exynos5410 node,
`cciProbed` the result of `cci_probed()`, `(bootcpu, bootcluster)` the boot
core's MPIDR identity, and `registerRet` the value returned by
`mcpm_platform_register`.  Missing node or unprobed CCI return `-ENODEV`
before anything is touched; otherwise the entry vector is installed,
`edcs_data_init` seeds the tables (`none` models its `BUG_ON`),
`mcpm_smp_set_ops` runs, and on successful registration `mcpm_sync_init`
runs; the registration result is returned. -/
def edcs_init (nodeFound cciProbed : Bool) (bootcpu bootcluster : Nat)
    (registerRet : Int) (st : InitState) : Option (Int × InitState) :=
  if nodeFound = false then some (-ENODEV, st)
  else if cciProbed = false then some (-ENODEV, st)
  else
    let st1 := { st with entry_vector := true }
    match edcs_data_init bootcpu bootcluster st1.edcs with
    | none => none
    | some e =>
      let st2 := { st1 with edcs := e, smp_ops := true }
      if registerRet = 0 then
        some (0, { st2 with ops_registered := true, sync_done := true })
      else some (registerRet, st2)

/-- Checks, scanning a trace while tracking whether the global lock is held,
that no cache-flush action (`flushAll` or `flushLouis`) occurs while the
lock is held. -/
def flushLockFree : List DownAct → Bool → Bool
  | [], _ => true
  | a :: rest, held =>
    match a with
    | .lockAcquire => flushLockFree rest true
    | .lockRelease => flushLockFree rest false
    | .flushAll => !held && flushLockFree rest held
    | .flushLouis => !held && flushLockFree rest held
    | _ => flushLockFree rest held

/-- Whether `pat` occurs as a (not necessarily contiguous) subsequence of
`tr`. -/
def seqInTrace (pat tr : List DownAct) : Bool :=
  match pat, tr with
  | [], _ => true
  | _ :: _, [] => false
  | p :: ps, t :: ts => if p = t then seqInTrace ps ts else seqInTrace (p :: ps) ts

/-- A concrete interleaving used to exercise the executable semantics:
bring core 1 of cluster 0 up, take it down, then race a `power_up` of the
boot core against its own `power_down` (the use count reaches 2 and the
skip-suspend path runs). -/
def wEvents : List EdcsEvent :=
  [EdcsEvent.up 1 0, EdcsEvent.down true true 1 0,
   EdcsEvent.up 0 0, EdcsEvent.down true true 0 0]

lemma power_down_tail_state (eo : Bool) (s : EdcsState) (tr0 : List DownAct)
    (sw lm : Bool) :
    ∃ tr, exynos_power_down_tail eo s tr0 sw lm = .ok s tr sw lm :=
  ⟨_, rfl⟩

lemma power_down_tail_not_bug (eo : Bool) (s : EdcsState) (tr0 : List DownAct)
    (sw lm : Bool) :
    (exynos_power_down_tail eo s tr0 sw lm).isBug = false :=
  rfl

lemma power_down_tail_trace (eo : Bool) (s : EdcsState) (tr0 : List DownAct)
    (sw lm : Bool) :
    ∃ rest, (exynos_power_down_tail eo s tr0 sw lm).trace = tr0 ++ rest := by
  unfold exynos_power_down_tail DownResult.trace
  cases sw <;> cases lm <;> cases eo <;> simp

/-- C9 (counterexample): the claim "invoking the power-gate primitive twice
with the same desired state produces exactly one bus write" fails when the
observed core state already equals the desired state: with every core
observed powered on, two enable calls perform zero bus writes, not one. -/
theorem power_control_twice_zero_writes :
    ¬ (exynos_core_power_control 0 0 true
        (exynos_core_power_control 0 0 true pmuAllOn)).writes = 1 := by
  decide

/-- C9 (amended): the power-gate primitive is idempotent: each call reads
the observed core state and writes the configuration register only when the
observed state differs from the desired one, so the second of two calls
with the same desired state is always a complete no-op, two calls perform
at most one bus write, and they perform exactly one bus write precisely
when the initially observed state differed from the desired value. -/
theorem power_control_idempotent (cpu cluster : Nat) (enable : Bool) (hw : PmuState) :
    exynos_core_power_control cpu cluster enable
        (exynos_core_power_control cpu cluster enable hw) =
      exynos_core_power_control cpu cluster enable hw ∧
    (exynos_core_power_control cpu cluster enable
        (exynos_core_power_control cpu cluster enable hw)).writes ≤ hw.writes + 1 ∧
    ((exynos_core_power_control cpu cluster enable
        (exynos_core_power_control cpu cluster enable hw)).writes = hw.writes + 1 ↔
      hw.status (cluster * MAX_CPUS_PER_CLUSTER + cpu) % 4 ≠
        (if enable then S5P_CORE_LOCAL_PWR_EN else 0)) := by
  by_cases h : hw.status (cluster * MAX_CPUS_PER_CLUSTER + cpu) % 4 =
      (if enable then S5P_CORE_LOCAL_PWR_EN else 0)
  · unfold exynos_core_power_control
    simp [h]
  · have h1 : exynos_core_power_control cpu cluster enable hw =
        { status := fun n => if n = cluster * MAX_CPUS_PER_CLUSTER + cpu then
            (if enable then S5P_CORE_LOCAL_PWR_EN else 0) else hw.status n,
          writes := hw.writes + 1 } := by
      unfold exynos_core_power_control
      simp [h]
    have h2 : exynos_core_power_control cpu cluster enable
        (exynos_core_power_control cpu cluster enable hw) =
        exynos_core_power_control cpu cluster enable hw := by
      rw [h1]
      unfold exynos_core_power_control
      cases enable <;> simp [S5P_CORE_LOCAL_PWR_EN]
    refine ⟨h2, ?_, ?_⟩
    · rw [h2, h1]
    · rw [h2, h1]
      simp [h]

/-- C8: when the samsung,exynos5410 node is absent or the CCI coherency
fabric is not probed, `edcs_init` returns `-ENODEV` with the whole init
state (use-count tables, cluster counts, entry vector, smp ops, sequencer
registration, sync init) exactly as it was: no partial initialization. -/
theorem edcs_init_enodev (nodeFound cciProbed : Bool) (bootcpu bootcluster : Nat)
    (registerRet : Int) (st : InitState)
    (h : nodeFound = false ∨ cciProbed = false) :
    edcs_init nodeFound cciProbed bootcpu bootcluster registerRet st =
      some (-ENODEV, st) := by
  rcases h with h | h
  · subst h
    unfold edcs_init
    simp
  · subst h
    unfold edcs_init
    cases nodeFound <;> simp

/-- C8 witness: a concrete missing-node run from the pristine pre-init
state returns `-ENODEV` and leaves the state untouched. -/
theorem edcs_init_enodev_witness :
    (false = false ∨ true = false) ∧
    edcs_init false true 0 0 0 initState0 = some (-ENODEV, initState0) :=
  ⟨Or.inl rfl, edcs_init_enodev false true 0 0 0 initState0 (Or.inl rfl)⟩

lemma power_down_trace_shape (clusterUp enterOk : Bool) (cpu cluster : Nat)
    (s : EdcsState) (hc : cpu < EDCS_CPUS_PER_CLUSTER) (hcl : cluster < EDCS_CLUSTERS) :
    ∃ rest, (exynos_power_down clusterUp enterOk cpu cluster s).trace =
      [DownAct.cpuGoingDown, DownAct.lockAcquire, DownAct.clusterStateCheck clusterUp]
        ++ rest := by
  have hb : ¬ (EDCS_CPUS_PER_CLUSTER ≤ cpu ∨ EDCS_CLUSTERS ≤ cluster) := by omega
  cases clusterUp
  · exact ⟨[], by simp [exynos_power_down, hb, DownResult.trace]⟩
  · by_cases h0 : s.use_count cpu cluster - 1 = 0
    · simpa [exynos_power_down, hb, h0] using
        power_down_tail_trace enterOk
          (addCore (setUse s cpu cluster (s.use_count cpu cluster - 1)) cluster (-1))
          [DownAct.cpuGoingDown, DownAct.lockAcquire, DownAct.clusterStateCheck true]
          false
          ((addCore (setUse s cpu cluster (s.use_count cpu cluster - 1)) cluster
              (-1)).core_count cluster == 0)
    · by_cases h1 : s.use_count cpu cluster - 1 = 1
      · simpa [exynos_power_down, hb, h0, h1] using
          power_down_tail_trace enterOk
            (setUse s cpu cluster (s.use_count cpu cluster - 1))
            [DownAct.cpuGoingDown, DownAct.lockAcquire, DownAct.clusterStateCheck true]
            true false
      · exact ⟨[], by simp [exynos_power_down, hb, h0, h1, DownResult.trace]⟩

/-- C7: for an in-range executing core, `power_down` performs, in order, the
going-down notification, the lock acquisition, and then immediately the
coordinator cluster-state assertion, before anything else (in particular
before the use-count decrement); when the observed cluster state is not UP,
the run halts on the fatal path right there, having performed exactly those
three actions. -/
theorem power_down_checks_cluster_state (clusterUp enterOk : Bool) (cpu cluster : Nat)
    (s : EdcsState) (hc : cpu < EDCS_CPUS_PER_CLUSTER) (hcl : cluster < EDCS_CLUSTERS) :
    (exynos_power_down clusterUp enterOk cpu cluster s).trace.take 3 =
      [DownAct.cpuGoingDown, DownAct.lockAcquire, DownAct.clusterStateCheck clusterUp] ∧
    (clusterUp = false →
      exynos_power_down clusterUp enterOk cpu cluster s =
        .bug [DownAct.cpuGoingDown, DownAct.lockAcquire,
              DownAct.clusterStateCheck clusterUp]) := by
  have hb : ¬ (EDCS_CPUS_PER_CLUSTER ≤ cpu ∨ EDCS_CLUSTERS ≤ cluster) := by omega
  constructor
  · obtain ⟨rest, hrest⟩ := power_down_trace_shape clusterUp enterOk cpu cluster s hc hcl
    rw [hrest]
    rfl
  · intro hdn
    subst hdn
    simp [exynos_power_down, hb]

/-- C7 witness: a concrete in-range run with the cluster observed DOWN halts
on the fatal path right after the cluster-state check. -/
theorem power_down_checks_cluster_state_witness :
    (0 : Nat) < EDCS_CPUS_PER_CLUSTER ∧ (0 : Nat) < EDCS_CLUSTERS ∧
    ((exynos_power_down false true 0 0 zeroState).trace.take 3 =
      [DownAct.cpuGoingDown, DownAct.lockAcquire, DownAct.clusterStateCheck false] ∧
    (false = false →
      exynos_power_down false true 0 0 zeroState =
        .bug [DownAct.cpuGoingDown, DownAct.lockAcquire,
              DownAct.clusterStateCheck false])) :=
  ⟨by decide, by decide,
    power_down_checks_cluster_state false true 0 0 zeroState (by decide) (by decide)⟩

lemma flushLockFree_tail (eo : Bool) (s : EdcsState) (sw lm : Bool) :
    flushLockFree (exynos_power_down_tail eo s
      [DownAct.cpuGoingDown, DownAct.lockAcquire, DownAct.clusterStateCheck true]
      sw lm).trace false = true := by
  unfold exynos_power_down_tail DownResult.trace
  cases sw <;> cases lm <;> cases eo <;> rfl

/-- C6: on every path of `power_down` — whole-cluster teardown, local-only
teardown, skip-suspend, and the fatal paths — the global lock is released
strictly before any cache maintenance runs: scanning the action trace while
tracking lock ownership, no whole-cache or local-cache flush ever occurs
while the lock is held. -/
theorem power_down_flush_without_lock (clusterUp enterOk : Bool) (cpu cluster : Nat)
    (s : EdcsState) :
    flushLockFree (exynos_power_down clusterUp enterOk cpu cluster s).trace false
      = true := by
  by_cases hb : EDCS_CPUS_PER_CLUSTER ≤ cpu ∨ EDCS_CLUSTERS ≤ cluster
  · simp [exynos_power_down, hb, DownResult.trace, flushLockFree]
  · cases clusterUp
    · simp [exynos_power_down, hb, DownResult.trace, flushLockFree]
    · by_cases h0 : s.use_count cpu cluster - 1 = 0
      · simpa [exynos_power_down, hb, h0] using
          flushLockFree_tail enterOk
            (addCore (setUse s cpu cluster (s.use_count cpu cluster - 1)) cluster (-1))
            false
            ((addCore (setUse s cpu cluster (s.use_count cpu cluster - 1)) cluster
                (-1)).core_count cluster == 0)
      · by_cases h1 : s.use_count cpu cluster - 1 = 1
        · simpa [exynos_power_down, hb, h0, h1] using
            flushLockFree_tail enterOk
              (setUse s cpu cluster (s.use_count cpu cluster - 1)) true false
        · simp [exynos_power_down, hb, h0, h1, DownResult.trace, flushLockFree]

/-- C5: for an in-range core with the cluster observed UP, `power_down`
halts on the fatal `BUG` path exactly when the decremented use count is
neither 0 nor 1; in particular, invoking it while the core's use count is 0
(decrement produces -1) halts right after the cluster-state check with no
continuation of the power-down sequence. -/
theorem power_down_bug_iff (enterOk : Bool) (cpu cluster : Nat) (s : EdcsState)
    (hc : cpu < EDCS_CPUS_PER_CLUSTER) (hcl : cluster < EDCS_CLUSTERS) :
    ((exynos_power_down true enterOk cpu cluster s).isBug = true ↔
      (s.use_count cpu cluster - 1 ≠ 0 ∧ s.use_count cpu cluster - 1 ≠ 1)) ∧
    (s.use_count cpu cluster = 0 →
      exynos_power_down true enterOk cpu cluster s =
        .bug [DownAct.cpuGoingDown, DownAct.lockAcquire,
              DownAct.clusterStateCheck true]) := by
  have hb : ¬ (EDCS_CPUS_PER_CLUSTER ≤ cpu ∨ EDCS_CLUSTERS ≤ cluster) := by omega
  constructor
  · by_cases h0 : s.use_count cpu cluster - 1 = 0
    · simp [exynos_power_down, hb, h0, power_down_tail_not_bug]
    · by_cases h1 : s.use_count cpu cluster - 1 = 1
      · simp [exynos_power_down, hb, h0, h1, power_down_tail_not_bug]
      · simp [exynos_power_down, hb, h0, h1, DownResult.isBug]
  · intro hu
    have h0 : ¬ (s.use_count cpu cluster - 1 = 0) := by omega
    have h1 : ¬ (s.use_count cpu cluster - 1 = 1) := by omega
    simp [exynos_power_down, hb, h0, h1]

/-- C5 witness: taking down core 0 of cluster 0 when its use count is
already 0 hits the fatal path, and the iff evaluates there. -/
theorem power_down_bug_iff_witness :
    (0 : Nat) < EDCS_CPUS_PER_CLUSTER ∧ (0 : Nat) < EDCS_CLUSTERS ∧
    (((exynos_power_down true true 0 0 zeroState).isBug = true ↔
      (zeroState.use_count 0 0 - 1 ≠ 0 ∧ zeroState.use_count 0 0 - 1 ≠ 1)) ∧
    (zeroState.use_count 0 0 = 0 →
      exynos_power_down true true 0 0 zeroState =
        .bug [DownAct.cpuGoingDown, DownAct.lockAcquire,
              DownAct.clusterStateCheck true])) :=
  ⟨by decide, by decide, power_down_bug_iff true 0 0 zeroState (by decide) (by decide)⟩

/-- C3: when a racing `power_up` pushed the executing core's use count to 2,
`power_down` decrements it to 1, sets skip-suspend, and returns normally
(`.ok` with `skip_wfi = true`, not elected last man): it does not mask the
GIC cpu interface, still performs the local-scope cache teardown, still
issues the unconditional core-down notification, does not invoke the power
gate, and does not execute wfi. -/
theorem power_down_race_skip (enterOk : Bool) (cpu cluster : Nat) (s : EdcsState)
    (hc : cpu < EDCS_CPUS_PER_CLUSTER) (hcl : cluster < EDCS_CLUSTERS)
    (hu : s.use_count cpu cluster = 2) :
    ∃ s1 tr, exynos_power_down true enterOk cpu cluster s = .ok s1 tr true false ∧
      s1.use_count cpu cluster = 1 ∧
      DownAct.gicCpuIfDown ∉ tr ∧ DownAct.flushLouis ∈ tr ∧ DownAct.cpuDown ∈ tr ∧
      DownAct.corePowerDown ∉ tr ∧ DownAct.wfi ∉ tr := by
  have hb : ¬ (EDCS_CPUS_PER_CLUSTER ≤ cpu ∨ EDCS_CLUSTERS ≤ cluster) := by omega
  have h0 : ¬ (s.use_count cpu cluster - 1 = 0) := by omega
  have h1 : s.use_count cpu cluster - 1 = 1 := by omega
  refine ⟨setUse s cpu cluster (s.use_count cpu cluster - 1),
    [DownAct.cpuGoingDown, DownAct.lockAcquire, DownAct.clusterStateCheck true,
     DownAct.lockRelease, DownAct.flushLouis, DownAct.cpuDown],
    ?_, ?_, by decide, by decide, by decide, by decide, by decide⟩
  · simp [exynos_power_down, hb, h0, h1, exynos_power_down_tail]
  · simp [setUse, h1]

/-- C3 witness: a state where core 0 of cluster 0 has use count 2 (one core
active in the cluster), run through `power_down`. -/
theorem power_down_race_skip_witness :
    (0 : Nat) < EDCS_CPUS_PER_CLUSTER ∧ (0 : Nat) < EDCS_CLUSTERS ∧
    (addCore (setUse zeroState 0 0 2) 0 1).use_count 0 0 = 2 ∧
    (∃ s1 tr, exynos_power_down true true 0 0 (addCore (setUse zeroState 0 0 2) 0 1) =
        .ok s1 tr true false ∧
      s1.use_count 0 0 = 1 ∧
      DownAct.gicCpuIfDown ∉ tr ∧ DownAct.flushLouis ∈ tr ∧ DownAct.cpuDown ∈ tr ∧
      DownAct.corePowerDown ∉ tr ∧ DownAct.wfi ∉ tr) :=
  ⟨by decide, by decide, by decide,
    power_down_race_skip true 0 0 (addCore (setUse zeroState 0 0 2) 0 1)
      (by decide) (by decide) (by decide)⟩

/-- C10: on the skip-suspend path (decrement yields use count 1), the
cluster's active count `core_count` is left unchanged for every cluster, the
core is not elected last man (`last_man = false` in the result), and the
whole-cluster teardown branch is unreachable: no whole-cache flush, no CCI
port disable and no cluster-down notification appear in the trace. -/
theorem power_down_skip_path_frame (enterOk : Bool) (cpu cluster : Nat) (s : EdcsState)
    (hc : cpu < EDCS_CPUS_PER_CLUSTER) (hcl : cluster < EDCS_CLUSTERS)
    (hu : s.use_count cpu cluster = 2) :
    ∃ s1 tr, exynos_power_down true enterOk cpu cluster s = .ok s1 tr true false ∧
      (∀ j, s1.core_count j = s.core_count j) ∧
      DownAct.flushAll ∉ tr ∧ DownAct.cciDisablePort ∉ tr ∧
      DownAct.leaveCriticalDown ∉ tr := by
  have hb : ¬ (EDCS_CPUS_PER_CLUSTER ≤ cpu ∨ EDCS_CLUSTERS ≤ cluster) := by omega
  have h0 : ¬ (s.use_count cpu cluster - 1 = 0) := by omega
  have h1 : s.use_count cpu cluster - 1 = 1 := by omega
  refine ⟨setUse s cpu cluster (s.use_count cpu cluster - 1),
    [DownAct.cpuGoingDown, DownAct.lockAcquire, DownAct.clusterStateCheck true,
     DownAct.lockRelease, DownAct.flushLouis, DownAct.cpuDown],
    ?_, fun j => rfl, by decide, by decide, by decide⟩
  simp [exynos_power_down, hb, h0, h1, exynos_power_down_tail]

/-- C10 witness: the same race state as the C3 scenario, checked for the
frame conditions. -/
theorem power_down_skip_path_frame_witness :
    (0 : Nat) < EDCS_CPUS_PER_CLUSTER ∧ (0 : Nat) < EDCS_CLUSTERS ∧
    (addCore (setUse zeroState 0 0 2) 0 1).use_count 0 0 = 2 ∧
    (∃ s1 tr, exynos_power_down true true 0 0 (addCore (setUse zeroState 0 0 2) 0 1) =
        .ok s1 tr true false ∧
      (∀ j, s1.core_count j = (addCore (setUse zeroState 0 0 2) 0 1).core_count j) ∧
      DownAct.flushAll ∉ tr ∧ DownAct.cciDisablePort ∉ tr ∧
      DownAct.leaveCriticalDown ∉ tr) :=
  ⟨by decide, by decide, by decide,
    power_down_skip_path_frame true 0 0 (addCore (setUse zeroState 0 0 2) 0 1)
      (by decide) (by decide) (by decide)⟩

/-- C4: for every in-range (core, cluster) whose current use count is legal
for a `power_up` (0 or 1), `exynos_power_up` increments exactly that entry
by one and returns 0 with the lock release as its last action; when the new
value is 1 it also increments the cluster's active count, sets the boot
flag to `SECONDARY_RESET` and asserts the core's power gate; when the new
value is 2 it leaves every active count unchanged and takes no hardware
action (the trace is just lock acquire and release). -/
theorem power_up_contract (cpu cluster : Nat) (s : EdcsState)
    (hc : cpu < EDCS_CPUS_PER_CLUSTER) (hcl : cluster < EDCS_CLUSTERS)
    (hu : s.use_count cpu cluster = 0 ∨ s.use_count cpu cluster = 1) :
    ∃ s1 tr, exynos_power_up cpu cluster s = .ok s1 tr 0 ∧
      s1.use_count cpu cluster = s.use_count cpu cluster + 1 ∧
      (∀ i j, ¬(i = cpu ∧ j = cluster) → s1.use_count i j = s.use_count i j) ∧
      (s.use_count cpu cluster = 0 →
        s1.core_count cluster = s.core_count cluster + 1 ∧
        tr = [UpAct.lockAcquire, UpAct.setBootFlag SECONDARY_RESET,
              UpAct.corePowerUp, UpAct.lockRelease]) ∧
      (s.use_count cpu cluster = 1 →
        (∀ j, s1.core_count j = s.core_count j) ∧
        tr = [UpAct.lockAcquire, UpAct.lockRelease]) ∧
      tr.getLast? = some UpAct.lockRelease := by
  have hb : ¬ (EDCS_CPUS_PER_CLUSTER ≤ cpu ∨ EDCS_CLUSTERS ≤ cluster) := by omega
  rcases hu with hu | hu
  · refine ⟨addCore (setUse s cpu cluster (s.use_count cpu cluster + 1)) cluster 1,
      [UpAct.lockAcquire, UpAct.setBootFlag SECONDARY_RESET,
       UpAct.corePowerUp, UpAct.lockRelease],
      ?_, ?_, ?_, ?_, ?_, by decide⟩
    · simp [exynos_power_up, hb, hu]
    · simp [addCore, setUse]
    · intro i j hij
      simp [addCore, setUse, hij]
    · intro _
      exact ⟨by simp [addCore, setUse], rfl⟩
    · intro h
      omega
  · refine ⟨setUse s cpu cluster (s.use_count cpu cluster + 1),
      [UpAct.lockAcquire, UpAct.lockRelease],
      ?_, ?_, ?_, ?_, ?_, by decide⟩
    · simp [exynos_power_up, hb, hu]
    · simp [setUse]
    · intro i j hij
      simp [setUse, hij]
    · intro h
      omega
    · intro _
      exact ⟨fun j => rfl, rfl⟩

/-- C4 witness: powering up core 2 of cluster 1 from the zero table (use
count 0: the full first-power-on leg), with the hypotheses checked. -/
theorem power_up_contract_witness :
    (2 : Nat) < EDCS_CPUS_PER_CLUSTER ∧ (1 : Nat) < EDCS_CLUSTERS ∧
    (zeroState.use_count 2 1 = 0 ∨ zeroState.use_count 2 1 = 1) ∧
    (∃ s1 tr, exynos_power_up 2 1 zeroState = .ok s1 tr 0 ∧
      s1.use_count 2 1 = zeroState.use_count 2 1 + 1 ∧
      (∀ i j, ¬(i = 2 ∧ j = 1) → s1.use_count i j = zeroState.use_count i j) ∧
      (zeroState.use_count 2 1 = 0 →
        s1.core_count 1 = zeroState.core_count 1 + 1 ∧
        tr = [UpAct.lockAcquire, UpAct.setBootFlag SECONDARY_RESET,
              UpAct.corePowerUp, UpAct.lockRelease]) ∧
      (zeroState.use_count 2 1 = 1 →
        (∀ j, s1.core_count j = zeroState.core_count j) ∧
        tr = [UpAct.lockAcquire, UpAct.lockRelease]) ∧
      tr.getLast? = some UpAct.lockRelease) :=
  ⟨by decide, by decide, Or.inl (by decide),
    power_up_contract 2 1 zeroState (by decide) (by decide) (Or.inl (by decide))⟩

/-- C2: in a non-fatal `power_down` run, the whole-cluster teardown sequence
(whole-cache flush with coherency disable, then CCI port disable, then the
cluster-down notification) appears in the trace, in that order, if and only
if this core's decrement yielded use count 0, that decrement brought the
cluster's active count to 0, and the outbound-enter-critical attempt
succeeded; in every other case only the local-scope cache teardown runs and
neither the whole-cache flush, the port disable nor the cluster-down
notification is issued. -/
theorem power_down_cluster_teardown_iff (enterOk : Bool) (cpu cluster : Nat)
    (s : EdcsState)
    (hc : cpu < EDCS_CPUS_PER_CLUSTER) (hcl : cluster < EDCS_CLUSTERS)
    (hu : s.use_count cpu cluster = 1 ∨ s.use_count cpu cluster = 2) :
    ∃ s1 tr sw lm, exynos_power_down true enterOk cpu cluster s = .ok s1 tr sw lm ∧
      (seqInTrace [DownAct.flushAll, DownAct.cciDisablePort, DownAct.leaveCriticalDown] tr
          = true ↔
        (s.use_count cpu cluster = 1 ∧ s.core_count cluster = 1 ∧ enterOk = true)) ∧
      (¬ (s.use_count cpu cluster = 1 ∧ s.core_count cluster = 1 ∧ enterOk = true) →
        DownAct.flushLouis ∈ tr ∧ DownAct.flushAll ∉ tr ∧
        DownAct.cciDisablePort ∉ tr ∧ DownAct.leaveCriticalDown ∉ tr) := by
  have hb : ¬ (EDCS_CPUS_PER_CLUSTER ≤ cpu ∨ EDCS_CLUSTERS ≤ cluster) := by omega
  rcases hu with hu | hu
  · have h0 : s.use_count cpu cluster - 1 = 0 := by omega
    by_cases hcc : s.core_count cluster = 1
    · have hlm : ((s.core_count cluster + -1 : Int) == 0) = true := by
        rw [beq_iff_eq]
        omega
      cases enterOk
      · refine ⟨addCore (setUse s cpu cluster (s.use_count cpu cluster - 1)) cluster (-1),
          [DownAct.cpuGoingDown, DownAct.lockAcquire, DownAct.clusterStateCheck true,
           DownAct.gicCpuIfDown, DownAct.enterCritical false, DownAct.lockRelease,
           DownAct.flushLouis, DownAct.cpuDown, DownAct.corePowerDown, DownAct.wfi],
          false, true, ?_, ?_, ?_⟩
        · simp [exynos_power_down, exynos_power_down_tail, hb, h0, addCore, setUse, hlm]
        · simp [seqInTrace]
        · intro _
          refine ⟨by decide, by decide, by decide, by decide⟩
      · refine ⟨addCore (setUse s cpu cluster (s.use_count cpu cluster - 1)) cluster (-1),
          [DownAct.cpuGoingDown, DownAct.lockAcquire, DownAct.clusterStateCheck true,
           DownAct.gicCpuIfDown, DownAct.enterCritical true, DownAct.lockRelease,
           DownAct.flushAll, DownAct.cciDisablePort, DownAct.leaveCriticalDown,
           DownAct.cpuDown, DownAct.corePowerDown, DownAct.wfi],
          false, true, ?_, ?_, ?_⟩
        · simp [exynos_power_down, exynos_power_down_tail, hb, h0, addCore, setUse, hlm]
        · simp [seqInTrace, hu, hcc]
        · intro h
          exact absurd ⟨hu, hcc, rfl⟩ h
    · have hlm : ((s.core_count cluster + -1 : Int) == 0) = false := by
        rw [beq_eq_false_iff_ne]
        omega
      refine ⟨addCore (setUse s cpu cluster (s.use_count cpu cluster - 1)) cluster (-1),
        [DownAct.cpuGoingDown, DownAct.lockAcquire, DownAct.clusterStateCheck true,
         DownAct.gicCpuIfDown, DownAct.lockRelease, DownAct.flushLouis,
         DownAct.cpuDown, DownAct.corePowerDown, DownAct.wfi],
        false, false, ?_, ?_, ?_⟩
      · simp [exynos_power_down, exynos_power_down_tail, hb, h0, addCore, setUse, hlm]
      · simp [seqInTrace, hcc]
      · intro _
        refine ⟨by decide, by decide, by decide, by decide⟩
  · have h0 : ¬ (s.use_count cpu cluster - 1 = 0) := by omega
    have h1 : s.use_count cpu cluster - 1 = 1 := by omega
    have hne : ¬ (s.use_count cpu cluster = 1) := by omega
    refine ⟨setUse s cpu cluster (s.use_count cpu cluster - 1),
      [DownAct.cpuGoingDown, DownAct.lockAcquire, DownAct.clusterStateCheck true,
       DownAct.lockRelease, DownAct.flushLouis, DownAct.cpuDown],
      true, false, ?_, ?_, ?_⟩
    · simp [exynos_power_down, exynos_power_down_tail, hb, h0, h1]
    · simp [seqInTrace, hne]
    · intro _
      refine ⟨by decide, by decide, by decide, by decide⟩

/-- C2 witness: the sole active core of cluster 0 (use count 1, active
count 1) powers down with a successful enter-critical attempt, so the
whole-cluster teardown sequence must appear. -/
theorem power_down_cluster_teardown_iff_witness :
    (0 : Nat) < EDCS_CPUS_PER_CLUSTER ∧ (0 : Nat) < EDCS_CLUSTERS ∧
    ((addCore (setUse zeroState 0 0 1) 0 1).use_count 0 0 = 1 ∨
     (addCore (setUse zeroState 0 0 1) 0 1).use_count 0 0 = 2) ∧
    (∃ s1 tr sw lm,
      exynos_power_down true true 0 0 (addCore (setUse zeroState 0 0 1) 0 1) =
        .ok s1 tr sw lm ∧
      (seqInTrace [DownAct.flushAll, DownAct.cciDisablePort, DownAct.leaveCriticalDown] tr
          = true ↔
        ((addCore (setUse zeroState 0 0 1) 0 1).use_count 0 0 = 1 ∧
         (addCore (setUse zeroState 0 0 1) 0 1).core_count 0 = 1 ∧ true = true)) ∧
      (¬ ((addCore (setUse zeroState 0 0 1) 0 1).use_count 0 0 = 1 ∧
          (addCore (setUse zeroState 0 0 1) 0 1).core_count 0 = 1 ∧ true = true) →
        DownAct.flushLouis ∈ tr ∧ DownAct.flushAll ∉ tr ∧
        DownAct.cciDisablePort ∉ tr ∧ DownAct.leaveCriticalDown ∉ tr)) :=
  ⟨by decide, by decide, Or.inl (by decide),
    power_down_cluster_teardown_iff true 0 0 (addCore (setUse zeroState 0 0 1) 0 1)
      (by decide) (by decide) (Or.inl (by decide))⟩

lemma countP_ext (f g : Nat → Bool) (h : ∀ i, f i = g i) (l : List Nat) :
    l.countP f = l.countP g := by
  have hfg : f = g := funext h
  rw [hfg]

lemma countP_agree_off (f g : Nat → Bool) (c : Nat)
    (h : ∀ i, i ≠ c → f i = g i) :
    ∀ l : List Nat, c ∉ l → l.countP f = l.countP g := by
  intro l
  induction l with
  | nil => intro _; rfl
  | cons a t ih =>
    intro hmem
    rw [List.mem_cons] at hmem
    push_neg at hmem
    rw [List.countP_cons, List.countP_cons, ih hmem.2, h a (Ne.symm hmem.1)]

lemma countP_update_mem (f g : Nat → Bool) (c : Nat)
    (h : ∀ i, i ≠ c → f i = g i) :
    ∀ l : List Nat, l.Nodup → c ∈ l →
      l.countP f + (if g c then 1 else 0) = l.countP g + (if f c then 1 else 0) := by
  intro l
  induction l with
  | nil => intro _ hm; cases hm
  | cons a t ih =>
    intro hnd hm
    rw [List.nodup_cons] at hnd
    rw [List.countP_cons, List.countP_cons]
    rcases List.mem_cons.mp hm with he | hm2
    · subst he
      rw [countP_agree_off f g c h t hnd.1]
      omega
    · have hane : a ≠ c := by
        intro he
        subst he
        exact hnd.1 hm2
      have hfa : f a = g a := h a hane
      have hrec := ih hnd.2 hm2
      rw [hfa]
      omega

lemma countActive_setUse_other (s : EdcsState) (cpu cluster : Nat) (v : Int)
    (cl : Nat) (h : ¬ cl = cluster) :
    countActive (setUse s cpu cluster v) cl = countActive s cl := by
  unfold countActive
  refine countP_ext _ _ (fun i => ?_) _
  simp [setUse, h]

lemma countActive_setUse_self (s : EdcsState) (cpu cluster : Nat) (v : Int)
    (hc : cpu < EDCS_CPUS_PER_CLUSTER) :
    countActive (setUse s cpu cluster v) cluster +
        (if 1 ≤ s.use_count cpu cluster then 1 else 0) =
      countActive s cluster + (if 1 ≤ v then 1 else 0) := by
  unfold countActive
  have h := countP_update_mem
    (fun i => decide (1 ≤ (setUse s cpu cluster v).use_count i cluster))
    (fun i => decide (1 ≤ s.use_count i cluster)) cpu
    (fun i hi => by simp [setUse, hi])
    (List.range EDCS_CPUS_PER_CLUSTER) (List.nodup_range _) (List.mem_range.mpr hc)
  have hv : (setUse s cpu cluster v).use_count cpu cluster = v := by
    simp [setUse]
  simp only [hv, decide_eq_true_eq] at h
  simpa using h

lemma countActive_addCore (s : EdcsState) (cluster : Nat) (d : Int) (cl : Nat) :
    countActive (addCore s cluster d) cl = countActive s cl :=
  rfl

lemma power_down_tail_ok (eo : Bool) (s : EdcsState) (tr0 : List DownAct) (sw lm : Bool)
    (s1 : EdcsState) (tr : List DownAct) (sw1 lm1 : Bool)
    (h : exynos_power_down_tail eo s tr0 sw lm = .ok s1 tr sw1 lm1) : s1 = s := by
  unfold exynos_power_down_tail at h
  injection h with h1 h2 h3 h4
  exact h1.symm

lemma power_up_cases (cpu cluster : Nat) (s s1 : EdcsState) (tr : List UpAct) (r : Int)
    (hok : exynos_power_up cpu cluster s = .ok s1 tr r) :
    cpu < EDCS_CPUS_PER_CLUSTER ∧ cluster < EDCS_CLUSTERS ∧
    ((s.use_count cpu cluster = 0 ∧ s1 = addCore (setUse s cpu cluster 1) cluster 1) ∨
     (s.use_count cpu cluster = 1 ∧ s1 = setUse s cpu cluster 2)) := by
  by_cases hb : EDCS_CPUS_PER_CLUSTER ≤ cpu ∨ EDCS_CLUSTERS ≤ cluster
  · simp [exynos_power_up, hb] at hok
  · push_neg at hb
    refine ⟨hb.1, hb.2, ?_⟩
    by_cases h1 : s.use_count cpu cluster + 1 = 1
    · left
      have hu : s.use_count cpu cluster = 0 := by omega
      have hb2 : ¬ (EDCS_CPUS_PER_CLUSTER ≤ cpu ∨ EDCS_CLUSTERS ≤ cluster) := by omega
      simp [exynos_power_up, hb2, hu] at hok
      exact ⟨hu, hok.1.symm⟩
    · by_cases h2 : s.use_count cpu cluster + 1 = 2
      · right
        have hu : s.use_count cpu cluster = 1 := by omega
        have hb2 : ¬ (EDCS_CPUS_PER_CLUSTER ≤ cpu ∨ EDCS_CLUSTERS ≤ cluster) := by omega
        simp [exynos_power_up, hb2, hu] at hok
        exact ⟨hu, hok.1.symm⟩
      · have hb2 : ¬ (EDCS_CPUS_PER_CLUSTER ≤ cpu ∨ EDCS_CLUSTERS ≤ cluster) := by omega
        simp [exynos_power_up, hb2, h1, h2] at hok

lemma power_down_cases (cUp eOk : Bool) (cpu cluster : Nat) (s s1 : EdcsState)
    (tr : List DownAct) (sw lm : Bool)
    (hok : exynos_power_down cUp eOk cpu cluster s = .ok s1 tr sw lm) :
    cpu < EDCS_CPUS_PER_CLUSTER ∧ cluster < EDCS_CLUSTERS ∧
    ((s.use_count cpu cluster = 1 ∧ s1 = addCore (setUse s cpu cluster 0) cluster (-1)) ∨
     (s.use_count cpu cluster = 2 ∧ s1 = setUse s cpu cluster 1)) := by
  by_cases hb : EDCS_CPUS_PER_CLUSTER ≤ cpu ∨ EDCS_CLUSTERS ≤ cluster
  · simp [exynos_power_down, hb] at hok
  · push_neg at hb
    refine ⟨hb.1, hb.2, ?_⟩
    have hb2 : ¬ (EDCS_CPUS_PER_CLUSTER ≤ cpu ∨ EDCS_CLUSTERS ≤ cluster) := by omega
    cases cUp
    · simp [exynos_power_down, hb2] at hok
    · by_cases h0 : s.use_count cpu cluster - 1 = 0
      · left
        have hu : s.use_count cpu cluster = 1 := by omega
        simp [exynos_power_down, hb2, hu] at hok
        exact ⟨hu, power_down_tail_ok _ _ _ _ _ _ _ _ _ hok⟩
      · by_cases h1 : s.use_count cpu cluster - 1 = 1
        · right
          have hu : s.use_count cpu cluster = 2 := by omega
          simp [exynos_power_down, hb2, hu] at hok
          exact ⟨hu, power_down_tail_ok _ _ _ _ _ _ _ _ _ hok⟩
        · simp [exynos_power_down, hb2, h0, h1] at hok

lemma inv_after_write (s : EdcsState) (cpu cluster : Nat) (vold vnew d : Int)
    (hc : cpu < EDCS_CPUS_PER_CLUSTER) (hcl : cluster < EDCS_CLUSTERS)
    (hold : s.use_count cpu cluster = vold)
    (hrange : vnew = 0 ∨ vnew = 1 ∨ vnew = 2)
    (hd : (if 1 ≤ vnew then 1 else 0) - (if 1 ≤ vold then 1 else 0) = d)
    (hs : EdcsInv s) : EdcsInv (addCore (setUse s cpu cluster vnew) cluster d) := by
  constructor
  · intro i hi j hj
    by_cases hij : i = cpu ∧ j = cluster
    · simp [addCore, setUse, hij]
      exact hrange
    · simp only [addCore, setUse]
      simp [hij]
      exact hs.1 i hi j hj
  · intro cl hcl2
    rw [countActive_addCore]
    by_cases hc2 : cl = cluster
    · subst hc2
      have hcount := countActive_setUse_self s cpu cl vnew hc
      rw [hold] at hcount
      have hbase := hs.2 cl hcl2
      have hlhs : (addCore (setUse s cpu cl vnew) cl d).core_count cl
          = s.core_count cl + d := by
        simp [addCore, setUse]
      rw [hlhs]
      by_cases hv1 : (1:Int) ≤ vold <;> by_cases hv2 : (1:Int) ≤ vnew <;>
        simp [hv1, hv2] at hcount hd <;> omega
    · rw [countActive_setUse_other s cpu cluster vnew cl hc2]
      have hbase := hs.2 cl hcl2
      have hlhs : (addCore (setUse s cpu cluster vnew) cluster d).core_count cl
          = s.core_count cl := by
        simp [addCore, setUse, hc2]
      rw [hlhs]
      exact hbase

lemma inv_power_up (cpu cluster : Nat) (s s1 : EdcsState) (tr : List UpAct) (r : Int)
    (hok : exynos_power_up cpu cluster s = .ok s1 tr r) (hs : EdcsInv s) : EdcsInv s1 := by
  obtain ⟨hc, hcl, hcase⟩ := power_up_cases cpu cluster s s1 tr r hok
  rcases hcase with ⟨hu, hs1⟩ | ⟨hu, hs1⟩
  · subst hs1
    exact inv_after_write s cpu cluster 0 1 1 hc hcl hu (by omega) (by norm_num) hs
  · subst hs1
    have h2 : setUse s cpu cluster 2 = addCore (setUse s cpu cluster 2) cluster 0 := by
      unfold addCore
      cases s
      simp
    rw [h2]
    exact inv_after_write s cpu cluster 1 2 0 hc hcl hu (by omega) (by norm_num) hs

lemma inv_power_down (cUp eOk : Bool) (cpu cluster : Nat) (s s1 : EdcsState)
    (tr : List DownAct) (sw lm : Bool)
    (hok : exynos_power_down cUp eOk cpu cluster s = .ok s1 tr sw lm)
    (hs : EdcsInv s) : EdcsInv s1 := by
  obtain ⟨hc, hcl, hcase⟩ := power_down_cases cUp eOk cpu cluster s s1 tr sw lm hok
  rcases hcase with ⟨hu, hs1⟩ | ⟨hu, hs1⟩
  · subst hs1
    exact inv_after_write s cpu cluster 1 0 (-1) hc hcl hu (by omega) (by norm_num) hs
  · subst hs1
    have h2 : setUse s cpu cluster 1 = addCore (setUse s cpu cluster 1) cluster 0 := by
      unfold addCore
      cases s
      simp
    rw [h2]
    exact inv_after_write s cpu cluster 2 1 0 hc hcl hu (by omega) (by norm_num) hs

lemma inv_step (s s1 : EdcsState) (e : EdcsEvent) (h : edcsStep s e = some s1)
    (hs : EdcsInv s) : EdcsInv s1 := by
  cases e with
  | up cpu cluster =>
    cases hup : exynos_power_up cpu cluster s with
    | bug => simp [edcsStep, hup] at h
    | ok s2 tr r =>
      simp [edcsStep, hup] at h
      exact h ▸ inv_power_up cpu cluster s s2 tr r hup hs
  | down cUp eOk cpu cluster =>
    cases hdn : exynos_power_down cUp eOk cpu cluster s with
    | bug tr => simp [edcsStep, hdn] at h
    | ok s2 tr sw lm =>
      simp [edcsStep, hdn] at h
      exact h ▸ inv_power_down cUp eOk cpu cluster s s2 tr sw lm hdn hs

lemma inv_exec (evs : List EdcsEvent) :
    ∀ s sf, edcsExec s evs = some sf → EdcsInv s → EdcsInv sf := by
  induction evs with
  | nil =>
    intro s sf h hs
    simp [edcsExec] at h
    exact h ▸ hs
  | cons e es ih =>
    intro s sf h hs
    cases hst : edcsStep s e with
    | none => simp [edcsExec, hst] at h
    | some s1 =>
      simp only [edcsExec, hst] at h
      exact ih s1 sf h (inv_step s s1 e hst hs)

lemma inv_data_init (cpu cluster : Nat) (s0 : EdcsState)
    (h : edcs_data_init cpu cluster zeroState = some s0) : EdcsInv s0 := by
  by_cases hb : EDCS_CPUS_PER_CLUSTER ≤ cpu ∨ EDCS_CLUSTERS ≤ cluster
  · simp [edcs_data_init, hb] at h
  · push_neg at hb
    have hb2 : ¬ (EDCS_CPUS_PER_CLUSTER ≤ cpu ∨ EDCS_CLUSTERS ≤ cluster) := by omega
    simp [edcs_data_init, hb2] at h
    subst h
    refine inv_after_write zeroState cpu cluster 0 1 1 hb.1 hb.2 rfl (by norm_num)
      (by norm_num) ?_
    constructor
    · intro i _ j _
      exact Or.inl rfl
    · intro cl _
      rfl

/-- C1: starting from the state seeded by `edcs_data_init` on the zeroed
tables, every interleaving of `power_up` / `power_down` calls that completes
without hitting a fatal `BUG` path leaves the bookkeeping (observed between
calls, i.e. with the global lock free) satisfying the invariant: every
`edcs_use_count` entry is 0, 1 or 2, and each cluster's `core_count` equals
the number of its cores with use count at least 1. -/
theorem edcs_counts_invariant (bootcpu bootcluster : Nat) (evs : List EdcsEvent)
    (s0 sf : EdcsState)
    (hinit : edcs_data_init bootcpu bootcluster zeroState = some s0)
    (hexec : edcsExec s0 evs = some sf) : EdcsInv sf :=
  inv_exec evs s0 sf hexec (inv_data_init bootcpu bootcluster s0 hinit)

/-- C1 witness: the boot core seeds the tables, then a concrete interleaving
with a second core's up/down and a racing up/down pair on the boot core
(use count passing through 2) ends in an invariant-satisfying state. -/
theorem edcs_counts_invariant_witness :
    EdcsInv ((edcsExec ((edcs_data_init 0 0 zeroState).getD zeroState) wEvents).getD
      zeroState) :=
  edcs_counts_invariant 0 0 wEvents
    ((edcs_data_init 0 0 zeroState).getD zeroState)
    ((edcsExec ((edcs_data_init 0 0 zeroState).getD zeroState) wEvents).getD zeroState)
    rfl rfl
